import Mathlib

/-!
Verification of the task-manager server (src/client/src/patterns/strategy.ts).

The server keeps a single SQLite table `tasks` and exposes CRUD routes over it.
We embed the table as a list of rows in storage (rowid) order together with the
AUTOINCREMENT counter and a clock.  `CURRENT_TIMESTAMP` is modelled as a
monotonically non-decreasing clock: every mutating operation carries a
non-negative delay `dt` and executes at time `clock + dt` (SQLite timestamps
have second resolution, so two operations may well share a timestamp, i.e.
`dt = 0`).  A JavaScript `number` used as a row id is embedded as `Option Int`,
`none` standing for `NaN`; better-sqlite3 binds `NaN` as SQL `NULL`, and
`id = NULL` matches no row, which is exactly how `none` behaves below.
-/

namespace TaskManager

/-- Row of the `tasks` table (schema in `DatabaseManager.initializeDatabase`):
`id INTEGER PRIMARY KEY AUTOINCREMENT`, `title TEXT NOT NULL`,
`description TEXT`, `status TEXT DEFAULT 'pending'`,
`priority TEXT DEFAULT 'medium'`, and the two `DATETIME` columns. -/
structure Task where
  id : Nat
  title : String
  description : String
  status : String
  priority : String
  created_at : Nat
  updated_at : Nat
deriving DecidableEq, Repr

/-- The database state: rows in storage order, the AUTOINCREMENT counter,
and the current wall-clock time. -/
structure DBState where
  rows : List Task
  nextId : Nat
  clock : Nat
deriving DecidableEq, Repr

/-- Fresh database right after `CREATE TABLE IF NOT EXISTS tasks`:
no rows, AUTOINCREMENT starts at 1. -/
def initialState : DBState := { rows := [], nextId := 1, clock := 0 }

/-- The enumerated status values of the spec. -/
def enumStatuses : List String := ["pending", "in-progress", "completed"]

/-- The enumerated priority values of the spec. -/
def enumPriorities : List String := ["low", "medium", "high"]

/-- SQL `id = ?` with the bound value `qid` (`none` = `NaN`, bound as `NULL`):
`NULL` compares equal to nothing. -/
def idMatches (qid : Option Int) (r : Task) : Bool :=
  match qid with
  | some n => (r.id : Int) = n
  | none => false

/-- Query `SELECT * FROM tasks WHERE id = ?` via `stmt.get`: the first matching row,
if any (`TaskService.getTaskById`). -/
def getTaskById (s : DBState) (qid : Option Int) : Option Task :=
  s.rows.find? (idMatches qid)

/-- Argument of `TaskService.createTask` (an `Omit<Task, 'id'>` as the POST
route builds it: `title`, optional `description`, and the already-defaulted
`status` and `priority` strings). -/
structure CreateInput where
  title : String
  description : Option String
  status : String
  priority : String
deriving DecidableEq, Repr

/-- The row produced by the `INSERT INTO tasks (title, description, status,
priority) VALUES (?, ?, ?, ?)` at time `t`: `task.description || ''` stores
the empty string when the description is absent (or empty), and both
`DATETIME` columns default to `CURRENT_TIMESTAMP`. -/
def insertedRow (s : DBState) (inp : CreateInput) (t : Nat) : Task :=
  { id := s.nextId
    title := inp.title
    description := inp.description.getD ("")
    status := inp.status
    priority := inp.priority
    created_at := t
    updated_at := t }

/-- Service method `TaskService.createTask`: insert the row, then re-read it through
`getTaskById(result.lastInsertRowid)`. -/
def createTask (s : DBState) (inp : CreateInput) (dt : Nat) : DBState × Option Task :=
  let t := s.clock + dt
  let row := insertedRow s inp t
  let s' : DBState := { rows := s.rows ++ [row], nextId := s.nextId + 1, clock := t }
  (s', getTaskById s' (some (s.nextId : Int)))

/-- Argument of `TaskService.updateTask`: a `Partial<Task>`. Each field is a
JavaScript value that is either absent (`undefined`, the outer `none`) —
which better-sqlite3 refuses to bind, throwing a `TypeError` before the
statement runs — or present: JSON `null` (`some none`), bound as SQL `NULL`
so that `COALESCE(?, col)` keeps the prior column value, or a string
(`some (some v)`). -/
structure UpdateInput where
  title : Option (Option String)
  description : Option (Option String)
  status : Option (Option String)
  priority : Option (Option String)
deriving DecidableEq, Repr

/-- Check performed by better-sqlite3 while binding the four `UPDATE`
parameters: every field must be present (a string or `null`); an `undefined`
field makes `stmt.run` throw a `TypeError`, so the statement never runs. -/
def bindable (u : UpdateInput) : Bool :=
  u.title.isSome && u.description.isSome && u.status.isSome && u.priority.isSome

/-- Effect of the `UPDATE` statement on one matching row, once all four
parameters were bound (`NULL` or a string): each column is
`COALESCE(?, col)`, and `updated_at = CURRENT_TIMESTAMP`. -/
def applyUpdates (u : UpdateInput) (t : Nat) (r : Task) : Task :=
  { r with
    title := (Option.join u.title).getD r.title
    description := (Option.join u.description).getD r.description
    status := (Option.join u.status).getD r.status
    priority := (Option.join u.priority).getD r.priority
    updated_at := t }

/-- Service method `TaskService.updateTask`: bind the four parameters —
binding an `undefined` one throws a `TypeError` (`Except.error`) with the
database untouched — then run `UPDATE ... WHERE id = ?`; if
`result.changes > 0`, re-read the row and return it, else return `null`. -/
def updateTask (s : DBState) (qid : Option Int) (u : UpdateInput) (dt : Nat) :
    DBState × Except Unit (Option Task) :=
  if bindable u then
    let t := s.clock + dt
    let rows' := s.rows.map (fun r => if idMatches qid r then applyUpdates u t r else r)
    let changes := (s.rows.filter (idMatches qid)).length
    let s' : DBState := { rows := rows', nextId := s.nextId, clock := t }
    if changes > 0 then (s', Except.ok (getTaskById s' qid)) else (s', Except.ok none)
  else (s, Except.error ())

/-- Service method `TaskService.deleteTask`: `DELETE FROM tasks WHERE id = ?`, returning
whether `result.changes > 0`. -/
def deleteTask (s : DBState) (qid : Option Int) : DBState × Bool :=
  let changes := (s.rows.filter (idMatches qid)).length
  let s' : DBState := { s with rows := s.rows.filter (fun r => !(idMatches qid r)) }
  (s', changes > 0)

/-- Stable insertion of a row into a list kept in descending `created_at`
order: skip over strictly newer rows, i.e. on ties the earlier-stored row
stays first (SQLite feeds the sorter in rowid order). -/
def insertByCreatedDesc (r : Task) : List Task → List Task
  | [] => [r]
  | x :: xs =>
    if r.created_at < x.created_at then x :: insertByCreatedDesc r xs
    else r :: x :: xs

/-- Stable sort by `created_at` descending (`ORDER BY created_at DESC`). -/
def sortByCreatedDesc : List Task → List Task
  | [] => []
  | x :: xs => insertByCreatedDesc x (sortByCreatedDesc xs)

/-- Service method `TaskService.getAllTasks`: `SELECT * FROM tasks ORDER BY created_at DESC`. -/
def getAllTasks (s : DBState) : List Task := sortByCreatedDesc s.rows

/-- Status descriptor of the `TaskStatusFactory` catalog. -/
structure TaskStatus where
  name : String
  color : String
  canTransitionTo : List String
deriving DecidableEq, Repr

/-- Descriptor stored under the map key `pending`. -/
def pendingStatus : TaskStatus :=
  { name := "Pending", color := "yellow", canTransitionTo := ["in-progress", "completed"] }

/-- Descriptor stored under the map key `in-progress`. -/
def inProgressStatus : TaskStatus :=
  { name := "In Progress", color := "blue", canTransitionTo := ["completed", "pending"] }

/-- Descriptor stored under the map key `completed`. -/
def completedStatus : TaskStatus :=
  { name := "Completed", color := "green", canTransitionTo := ["pending"] }

/-- Catalog method `TaskStatusFactory.getAllStatuses`: `Array.from(this.statuses.values())`;
a JavaScript `Map` iterates in insertion order. -/
def getAllStatuses : List TaskStatus := [pendingStatus, inProgressStatus, completedStatus]

/-- JavaScript whitespace skipped by `parseInt` (the characters relevant to a
URL path segment). -/
def isJsSpace (c : Char) : Bool :=
  c = ' ' || c = '\t' || c = '\n' || c = '\r'

/-- Hexadecimal digit test. -/
def isHexDigit (c : Char) : Bool :=
  c.isDigit || (('a' ≤ c && c ≤ 'f') || ('A' ≤ c && c ≤ 'F'))

/-- Numeric value of a (hex) digit character. -/
def digitVal (c : Char) : Nat :=
  if c.isDigit then c.toNat - '0'.toNat
  else if 'a' ≤ c && c ≤ 'f' then c.toNat - 'a'.toNat + 10
  else if 'A' ≤ c && c ≤ 'F' then c.toNat - 'A'.toNat + 10
  else 0

/-- Value of a digit string in the given base. -/
def digitsToNat (base : Nat) (ds : List Char) : Nat :=
  ds.foldl (fun a c => a * base + digitVal c) 0

/-- Longest prefix of digits, `NaN` (i.e. `none`) when there is none. -/
def parseDigits (isD : Char → Bool) (base : Nat) (sign : Int) (cs : List Char) : Option Int :=
  let ds := cs.takeWhile isD
  if ds.isEmpty then none else some (sign * (digitsToNat base ds : Int))

/-- JavaScript `parseInt(str)` with no radix argument: skip whitespace, an
optional sign, honour a `0x`/`0X` prefix, read the longest digit prefix;
`none` models the `NaN` result. -/
def parseIntJS (str : String) : Option Int :=
  let cs := str.toList.dropWhile isJsSpace
  let sc : Int × List Char :=
    match cs with
    | '-' :: rest => (-1, rest)
    | '+' :: rest => (1, rest)
    | _ => (1, cs)
  match sc.2 with
  | '0' :: c :: rest =>
    if c = 'x' || c = 'X' then parseDigits isHexDigit 16 sc.1 rest
    else parseDigits Char.isDigit 10 sc.1 sc.2
  | _ => parseDigits Char.isDigit 10 sc.1 sc.2

deriving instance DecidableEq for Except

/-- JSON value of a route response. -/
inductive RespBody where
  | tasksList (l : List Task)
  | singleTask (t : Task)
  | statusList (l : List TaskStatus)
  | errMsg (m : String)
  | empty
deriving DecidableEq, Repr

/-- Outcome of one HTTP request: status code, JSON body, and the database
state afterwards. -/
structure HttpResult where
  status : Nat
  body : RespBody
  state : DBState
deriving DecidableEq, Repr

/-- Body of a `POST /api/tasks` request; `none` is an absent (`undefined`)
field. -/
structure PostBody where
  title : Option String
  description : Option String
  status : Option String
  priority : Option String
deriving DecidableEq, Repr

/-- The route's `if (!title)` guard: `undefined` and the empty string are
falsy. -/
def titleFalsy (b : PostBody) : Bool :=
  match b.title with
  | none => true
  | some t => t = ""

/-- Route `POST /api/tasks`: reject a falsy title with 400, otherwise default
`status` to `pending` and `priority` to `medium` (destructuring defaults) and
create the task, answering 201 with the stored row. -/
def postTasksRoute (s : DBState) (b : PostBody) (dt : Nat) : HttpResult :=
  if titleFalsy b then
    { status := 400, body := RespBody.errMsg ("Title is required"), state := s }
  else
    let inp : CreateInput :=
      { title := b.title.getD ("")
        description := b.description
        status := b.status.getD ("pending")
        priority := b.priority.getD ("medium") }
    let res := createTask s inp dt
    match res.2 with
    | some row => { status := 201, body := RespBody.singleTask row, state := res.1 }
    | none => { status := 201, body := RespBody.empty, state := res.1 }

/-- Route `PUT /api/tasks/:id`: `parseInt` the path segment and update; a
thrown `TypeError` is caught and answered 500, otherwise 200 with the row or
404 when `updateTask` returned `null`. -/
def putTaskRoute (s : DBState) (seg : String) (u : UpdateInput) (dt : Nat) : HttpResult :=
  let res := updateTask s (parseIntJS seg) u dt
  match res.2 with
  | Except.error _ =>
    { status := 500, body := RespBody.errMsg ("Failed to update task"), state := res.1 }
  | Except.ok (some tk) => { status := 200, body := RespBody.singleTask tk, state := res.1 }
  | Except.ok none =>
    { status := 404, body := RespBody.errMsg ("Task not found"), state := res.1 }

/-- Route `DELETE /api/tasks/:id`: `parseInt` the path segment, delete, answer
204 on success or 404 when nothing was removed. -/
def deleteTaskRoute (s : DBState) (seg : String) : HttpResult :=
  let res := deleteTask s (parseIntJS seg)
  if res.2 then { status := 204, body := RespBody.empty, state := res.1 }
  else { status := 404, body := RespBody.errMsg ("Task not found"), state := res.1 }

/-- Route `GET /api/tasks`. -/
def getTasksRoute (s : DBState) : HttpResult :=
  { status := 200, body := RespBody.tasksList (getAllTasks s), state := s }

/-- Route `GET /api/statuses`: serves the static catalog, never touches the
table. -/
def getStatusesRoute (s : DBState) : HttpResult :=
  { status := 200, body := RespBody.statusList getAllStatuses, state := s }

/-- Service method `TaskService.createTask` with the observer fan-out made explicit: the row
is inserted (and auto-committed) first, then `notifyTaskCreated` runs; an
observer that throws (`Except.error`) aborts the call after the mutation, so
the returned state is the mutated one either way. -/
def createTaskNotified (s : DBState) (inp : CreateInput) (dt : Nat)
    (notify : Task → Except Unit Unit) : DBState × Except Unit (Option Task) :=
  let res := createTask s inp dt
  match res.2 with
  | some row =>
    match notify row with
    | Except.ok _ => (res.1, Except.ok (some row))
    | Except.error e => (res.1, Except.error e)
  | none => (res.1, Except.ok none)

/-- Service method `TaskService.updateTask` with the observer fan-out made
explicit: the fan-out runs only when a row was updated and returned. -/
def updateTaskNotified (s : DBState) (qid : Option Int) (u : UpdateInput) (dt : Nat)
    (notify : Task → Except Unit Unit) : DBState × Except Unit (Option Task) :=
  let res := updateTask s qid u dt
  match res.2 with
  | Except.ok (some row) =>
    match notify row with
    | Except.ok _ => (res.1, Except.ok (some row))
    | Except.error e => (res.1, Except.error e)
  | r2 => (res.1, r2)

/-- Service method `TaskService.deleteTask` with the observer fan-out made explicit. -/
def deleteTaskNotified (s : DBState) (qid : Option Int)
    (notify : Option Int → Except Unit Unit) : DBState × Except Unit Bool :=
  let res := deleteTask s qid
  if res.2 then
    match notify qid with
    | Except.ok _ => (res.1, Except.ok true)
    | Except.error e => (res.1, Except.error e)
  else (res.1, Except.ok false)

/-- One mutating service call; every route mutation goes through one of
these. -/
inductive Op where
  | createOp (inp : CreateInput) (dt : Nat)
  | updateOp (qid : Option Int) (u : UpdateInput) (dt : Nat)
  | deleteOp (qid : Option Int)
deriving DecidableEq, Repr

/-- State transition of one service call. -/
def applyOp (s : DBState) : Op → DBState
  | Op.createOp inp dt => (createTask s inp dt).1
  | Op.updateOp qid u dt => (updateTask s qid u dt).1
  | Op.deleteOp qid => (deleteTask s qid).1

/-- Run a trace of service calls; the reachable states are exactly
`runOps initialState ops`. -/
def runOps (s : DBState) (ops : List Op) : DBState := ops.foldl applyOp s

/-- An operation whose supplied `status`/`priority` values (after the route's
defaulting) lie in the enumerated sets. -/
def validOp : Op → Bool
  | Op.createOp inp _ =>
    enumStatuses.contains inp.status && enumPriorities.contains inp.priority
  | Op.updateOp _ u _ =>
    u.status.all (fun v => v.all (fun st => enumStatuses.contains st))
      && u.priority.all (fun v => v.all (fun p => enumPriorities.contains p))
  | Op.deleteOp _ => true

/-- Every stored row carries enumerated `status` and `priority` values. -/
def enumInv (s : DBState) : Bool :=
  s.rows.all (fun r => enumStatuses.contains r.status && enumPriorities.contains r.priority)

/-- Timestamp invariant: every row was last touched no later than now and no
earlier than it was created. -/
def timeInv (s : DBState) : Prop :=
  ∀ r ∈ s.rows, r.created_at ≤ r.updated_at ∧ r.updated_at ≤ s.clock

/-- Rows are stored in strictly increasing `created_at` order and none is
newer than the clock. -/
def chronOrdered (s : DBState) : Prop :=
  s.rows.Pairwise (fun a b => a.created_at < b.created_at) ∧
    ∀ r ∈ s.rows, r.created_at ≤ s.clock

/-- Well-formedness maintained by AUTOINCREMENT: every stored id is below the
counter, so a fresh insert can never collide with an existing row. -/
def wfIds (s : DBState) : Prop :=
  ∀ r ∈ s.rows, r.id < s.nextId

/-- Trace consisting only of task creations, each with its clock delay. -/
def createOps (inputs : List (CreateInput × Nat)) : List Op :=
  inputs.map (fun p => Op.createOp p.1 p.2)

/-- Sample creation input titled `A` with the route's default fields. -/
def inpA : CreateInput :=
  { title := "A", description := none, status := "pending", priority := "medium" }

/-- Sample creation input titled `B` with the route's default fields. -/
def inpB : CreateInput :=
  { title := "B", description := none, status := "pending", priority := "medium" }

/-- Sample creation input titled `C` with the route's default fields. -/
def inpC : CreateInput :=
  { title := "C", description := none, status := "pending", priority := "medium" }

/-- Row stored by creating `inpA` at time 5 in the fresh database. -/
def sampleRow : Task :=
  { id := 1, title := "A", description := "", status := "pending",
    priority := "medium", created_at := 5, updated_at := 5 }

/-- The row `sampleRow` after an all-null (keep-everything) update at
time 7. -/
def sampleRowUpd : Task :=
  { id := 1, title := "A", description := "", status := "pending",
    priority := "medium", created_at := 5, updated_at := 7 }

/-- Update body supplying no fields at all: every parameter binds as
`undefined` and `stmt.run` throws. -/
def emptyUpd : UpdateInput :=
  { title := none, description := none, status := none, priority := none }

/-- Row stored by creating `inpA` at time 0 in the fresh database. -/
def rowA0 : Task :=
  { id := 1, title := "A", description := "", status := "pending",
    priority := "medium", created_at := 0, updated_at := 0 }

/-- Update body supplying only a status string and omitting the other three
fields (`undefined` bindings). -/
def statusOnlyUpd : UpdateInput :=
  { title := none, description := none, status := some (some ("completed")), priority := none }

/-- Update body setting the status to a string and every other field to an
explicit JSON `null`: all four parameters bind. -/
def boundStatusUpd : UpdateInput :=
  { title := some none, description := some none,
    status := some (some ("completed")), priority := some none }

/-- Update body of four explicit JSON `null` fields: all parameters bind and
`COALESCE` keeps every column, but `updated_at` is still re-stamped. -/
def nullUpd : UpdateInput :=
  { title := some none, description := some none, status := some none, priority := some none }

/-- Service input produced by the POST route for a body supplying only a
title: the destructuring defaults fill in `pending` and `medium`. -/
def titleOnlyInput (ttl : String) : CreateInput :=
  { title := ttl, description := none, status := "pending", priority := "medium" }

/-- POST body supplying only a title. -/
def titleOnlyBody (ttl : String) : PostBody :=
  { title := some ttl, description := none, status := none, priority := none }

/-- Helper: once all four parameters bind, the post-state of `updateTask`
does not depend on whether a row matched (the inner `if` only selects the
return value). -/
theorem updateTask_fst_of_bindable (s : DBState) (qid : Option Int) (u : UpdateInput)
    (dt : Nat) (hb : bindable u = true) :
    (updateTask s qid u dt).1 =
      { rows := s.rows.map (fun r =>
          if idMatches qid r then applyUpdates u (s.clock + dt) r else r),
        nextId := s.nextId, clock := s.clock + dt } := by
  unfold updateTask
  rw [if_pos hb]
  dsimp only
  split <;> rfl

/-- Helper: an update body with an `undefined` field throws while binding and
leaves the database untouched. -/
theorem updateTask_undefined_binding (s : DBState) (qid : Option Int) (u : UpdateInput)
    (dt : Nat) (hb : bindable u = false) :
    updateTask s qid u dt = (s, Except.error ()) := by
  have hnb : ¬ (bindable u = true) := by simp [hb]
  unfold updateTask
  rw [if_neg hnb]

/-- Helper: a conditional rewrite touching no row is the identity map. -/
theorem map_ite_no_match {p : Task → Bool} (f : Task → Task) :
    ∀ l : List Task, (∀ r ∈ l, p r = false) →
      (l.map fun r => if p r then f r else r) = l
  | [], _ => rfl
  | x :: xs, h => by
    have hx : p x = false := h x (List.mem_cons_self x xs)
    have hxs := map_ite_no_match f xs (fun r hr => h r (List.mem_cons_of_mem x hr))
    simp [hx, hxs]

/-- Helper: filtering by a predicate no row satisfies yields the empty list. -/
theorem filter_no_match {p : Task → Bool} :
    ∀ l : List Task, (∀ r ∈ l, p r = false) → l.filter p = []
  | [], _ => rfl
  | x :: xs, h => by
    have hx : p x = false := h x (List.mem_cons_self x xs)
    have hxs := filter_no_match xs (fun r hr => h r (List.mem_cons_of_mem x hr))
    simp [List.filter_cons, hx, hxs]

/-- Helper: removing the rows satisfying a predicate no row satisfies keeps
the whole list. -/
theorem filter_not_no_match {p : Task → Bool} :
    ∀ l : List Task, (∀ r ∈ l, p r = false) → l.filter (fun r => !(p r)) = l
  | [], _ => rfl
  | x :: xs, h => by
    have hx : p x = false := h x (List.mem_cons_self x xs)
    have hxs := filter_not_no_match xs (fun r hr => h r (List.mem_cons_of_mem x hr))
    simp [List.filter_cons, hx, hxs]

/-- Helper: a conditional rewrite that preserves the predicate commutes with
the first-match lookup. -/
theorem find?_map_ite (p : Task → Bool) (f : Task → Task)
    (hp : ∀ x, p (f x) = p x) :
    ∀ l : List Task,
      (l.map fun x => if p x then f x else x).find? p = (l.find? p).map f
  | [] => rfl
  | x :: xs => by
    by_cases hx : p x = true
    · simp [List.find?_cons, hx, hp x]
    · have hx' : p x = false := by
        cases hpx : p x
        · rfl
        · exact absurd hpx hx
      simp [List.find?_cons, hx', hp x, find?_map_ite p f hp xs]

/-- C8: `GET /api/statuses` answers 200 with exactly the three fixed
descriptors, in catalog insertion order, leaving the table untouched, for
every database state. -/
theorem statuses_route_fixed (s : DBState) :
    getStatusesRoute s =
      { status := 200,
        body := RespBody.statusList [pendingStatus, inProgressStatus, completedStatus],
        state := s } := rfl

/-- C6: a `POST /api/tasks` request without a title is answered 400 and the
database state is returned unchanged, so no row is persisted. -/
theorem post_without_title_rejected (s : DBState) (b : PostBody) (dt : Nat)
    (h : b.title = none) :
    postTasksRoute s b dt =
      { status := 400, body := RespBody.errMsg ("Title is required"), state := s } := by
  simp [postTasksRoute, titleFalsy, h]

/-- Witness for C6 at the empty body and the fresh database. -/
theorem post_without_title_rejected_witness :
    ({ title := none, description := none, status := none, priority := none } : PostBody).title
        = none ∧
    postTasksRoute initialState
        { title := none, description := none, status := none, priority := none } 0 =
      { status := 400, body := RespBody.errMsg ("Title is required"), state := initialState } :=
  ⟨rfl, post_without_title_rejected initialState
    { title := none, description := none, status := none, priority := none } 0 rfl⟩

/-- C4: lifecycle notification is best-effort: whatever the observer fan-out
does (including throwing), the post-state of a create, update, or delete is
exactly the post-state of the bare store mutation — nothing is rolled back or
blocked. -/
theorem observer_throw_does_not_roll_back (s : DBState) (inp : CreateInput)
    (u : UpdateInput) (qidU qidD : Option Int) (dtC dtU : Nat)
    (nc nu : Task → Except Unit Unit) (nd : Option Int → Except Unit Unit) :
    (createTaskNotified s inp dtC nc).1 = (createTask s inp dtC).1 ∧
    (updateTaskNotified s qidU u dtU nu).1 = (updateTask s qidU u dtU).1 ∧
    (deleteTaskNotified s qidD nd).1 = (deleteTask s qidD).1 := by
  refine ⟨?_, ?_, ?_⟩
  · unfold createTaskNotified
    cases h : (createTask s inp dtC).2 with
    | none => simp [h]
    | some row => cases hn : nc row <;> simp [h, hn]
  · unfold updateTaskNotified
    cases h : (updateTask s qidU u dtU).2 with
    | error e => simp [h]
    | ok v =>
      cases v with
      | none => simp [h]
      | some row => cases hn : nu row <;> simp [h, hn]
  · unfold deleteTaskNotified
    cases h : (deleteTask s qidD).2 with
    | false => simp [h]
    | true => cases hn : nd qidD <;> simp [h, hn]

/-- Helper: a fully-bound update whose query id matches no stored row returns
`null` and leaves rows and the id counter unchanged. -/
theorem updateTask_no_match (s : DBState) (qid : Option Int) (u : UpdateInput) (dt : Nat)
    (hb : bindable u = true) (h : ∀ r ∈ s.rows, idMatches qid r = false) :
    updateTask s qid u dt =
      ({ rows := s.rows, nextId := s.nextId, clock := s.clock + dt }, Except.ok none) := by
  have hfil : s.rows.filter (idMatches qid) = [] := filter_no_match s.rows h
  have hmap : (s.rows.map fun r =>
      if idMatches qid r then applyUpdates u (s.clock + dt) r else r) = s.rows :=
    map_ite_no_match _ s.rows h
  unfold updateTask
  rw [if_pos hb]
  simp [hfil, hmap]

/-- Helper: deleting with a query id that matches no stored row removes
nothing and reports `false`. -/
theorem deleteTask_no_match (s : DBState) (qid : Option Int)
    (h : ∀ r ∈ s.rows, idMatches qid r = false) :
    deleteTask s qid = (s, false) := by
  have hfil : s.rows.filter (idMatches qid) = [] := filter_no_match s.rows h
  have hkeep : s.rows.filter (fun r => !(idMatches qid r)) = s.rows :=
    filter_not_no_match s.rows h
  unfold deleteTask
  simp [hfil, hkeep]

/-- C7 counterexample: id 1 is absent from the fresh, empty database, yet a
PUT whose body omits fields (here: everything but `status`) throws a
`TypeError` while binding `undefined` and is answered 500, not the claimed
404 — so the claim does not hold for every update body. -/
theorem partial_update_unknown_id_500 :
    (∀ r ∈ initialState.rows, idMatches (some 1) r = false) ∧
    (putTaskRoute initialState "1" statusOnlyUpd 0).status = 500 ∧
    ¬ (putTaskRoute initialState "1" statusOnlyUpd 0).status = 404 := by decide

/-- C7 (amended): when no stored row carries the requested id and the update
body binds all four parameters (each a string or an explicit `null`),
`updateTask` returns the not-found signal (`null`), the rows and the id
counter are untouched (so no `updated_at` is refreshed), and the PUT route
maps this to a 404 response; a body with an `undefined` field instead throws
at bind time and is answered 500 (the table still unchanged). -/
theorem bound_update_nonexistent_id_not_found (s : DBState) (qid : Option Int)
    (u : UpdateInput) (dt : Nat) (seg : String) (hb : bindable u = true)
    (h : ∀ r ∈ s.rows, idMatches qid r = false)
    (hseg : parseIntJS seg = qid) :
    (updateTask s qid u dt).2 = Except.ok none ∧
    (updateTask s qid u dt).1.rows = s.rows ∧
    (updateTask s qid u dt).1.nextId = s.nextId ∧
    (putTaskRoute s seg u dt).status = 404 ∧
    (putTaskRoute s seg u dt).state.rows = s.rows ∧
    (putTaskRoute s seg u dt).state.nextId = s.nextId := by
  have hupd := updateTask_no_match s qid u dt hb h
  have hroute : putTaskRoute s seg u dt =
      { status := 404, body := RespBody.errMsg ("Task not found"),
        state := { rows := s.rows, nextId := s.nextId, clock := s.clock + dt } } := by
    unfold putTaskRoute
    rw [hseg, hupd]
  exact ⟨by rw [hupd], by rw [hupd], by rw [hupd],
    by rw [hroute], by rw [hroute], by rw [hroute]⟩

/-- Witness for the amended C7: an all-null (fully bound) update of id 1 in
the fresh, empty database via segment `1`. -/
theorem bound_update_nonexistent_id_not_found_witness :
    bindable nullUpd = true ∧
    (∀ r ∈ initialState.rows, idMatches (some 1) r = false) ∧
    parseIntJS "1" = some 1 ∧
    ((updateTask initialState (some 1) nullUpd 0).2 = Except.ok none ∧
      (updateTask initialState (some 1) nullUpd 0).1.rows = initialState.rows ∧
      (updateTask initialState (some 1) nullUpd 0).1.nextId = initialState.nextId ∧
      (putTaskRoute initialState "1" nullUpd 0).status = 404 ∧
      (putTaskRoute initialState "1" nullUpd 0).state.rows = initialState.rows ∧
      (putTaskRoute initialState "1" nullUpd 0).state.nextId = initialState.nextId) :=
  ⟨by decide, by decide, by decide,
    bound_update_nonexistent_id_not_found initialState (some 1) nullUpd 0 "1"
      (by decide) (by decide) (by decide)⟩

/-- C10 counterexample: `parseInt("abc")` is `NaN`, yet a PUT whose body
omits every field throws a `TypeError` binding `undefined` and is answered
500 — not the claimed always-404. -/
theorem nan_id_partial_body_500 :
    parseIntJS "abc" = none ∧
    (putTaskRoute initialState "abc" emptyUpd 0).status = 500 ∧
    ¬ (putTaskRoute initialState "abc" emptyUpd 0).status = 404 := by decide

/-- C10 (amended): a DELETE whose `:id` segment parses to `NaN` matches no
row (the `NaN` binds as SQL `NULL`) and answers 404 with the table unchanged;
a PUT with such a segment does the same provided its body binds all four
parameters — a body with an `undefined` field instead throws at bind time and
is answered 500 (the table still unchanged). -/
theorem nan_id_yields_404 (s : DBState) (seg : String) (u : UpdateInput) (dt : Nat)
    (h : parseIntJS seg = none) (hb : bindable u = true) :
    (putTaskRoute s seg u dt).status = 404 ∧
    (putTaskRoute s seg u dt).state.rows = s.rows ∧
    (putTaskRoute s seg u dt).state.nextId = s.nextId ∧
    (deleteTaskRoute s seg).status = 404 ∧
    (deleteTaskRoute s seg).state = s := by
  have hm : ∀ r ∈ s.rows, idMatches none r = false := fun r _ => rfl
  have hupd := updateTask_no_match s none u dt hb hm
  have hdel := deleteTask_no_match s none hm
  have hput : putTaskRoute s seg u dt =
      { status := 404, body := RespBody.errMsg ("Task not found"),
        state := { rows := s.rows, nextId := s.nextId, clock := s.clock + dt } } := by
    unfold putTaskRoute
    rw [h, hupd]
  have hdelr : deleteTaskRoute s seg =
      { status := 404, body := RespBody.errMsg ("Task not found"), state := s } := by
    unfold deleteTaskRoute
    rw [h, hdel]
    exact rfl
  exact ⟨by rw [hput], by rw [hput], by rw [hput], by rw [hdelr], by rw [hdelr]⟩

/-- Witness for the amended C10 at segment `abc`, with an all-null (fully
bound) PUT body, against a database holding one task. -/
theorem nan_id_yields_404_witness :
    parseIntJS "abc" = none ∧
    bindable nullUpd = true ∧
    ((putTaskRoute (createTask initialState inpA 0).1 "abc" nullUpd 0).status = 404 ∧
      (putTaskRoute (createTask initialState inpA 0).1 "abc" nullUpd 0).state.rows
          = (createTask initialState inpA 0).1.rows ∧
      (putTaskRoute (createTask initialState inpA 0).1 "abc" nullUpd 0).state.nextId
          = (createTask initialState inpA 0).1.nextId ∧
      (deleteTaskRoute (createTask initialState inpA 0).1 "abc").status = 404 ∧
      (deleteTaskRoute (createTask initialState inpA 0).1 "abc").state
          = (createTask initialState inpA 0).1) :=
  ⟨by decide, by decide,
    nan_id_yields_404 (createTask initialState inpA 0).1 "abc" nullUpd 0
      (by decide) (by decide)⟩

/-- Helper: one validated service call preserves the enumeration invariant. -/
theorem enumInv_applyOp (s : DBState) (op : Op) (hv : validOp op = true)
    (h : enumInv s = true) : enumInv (applyOp s op) = true := by
  simp only [enumInv, List.all_eq_true, Bool.and_eq_true] at h
  cases op with
  | createOp inp dt =>
    simp only [validOp, Bool.and_eq_true] at hv
    simp only [applyOp, createTask, enumInv, List.all_eq_true, Bool.and_eq_true]
    intro r hr
    rcases List.mem_append.mp hr with hr | hr
    · exact h r hr
    · rcases List.mem_singleton.mp hr with rfl
      exact hv
  | updateOp qid u dt =>
    by_cases hb : bindable u = true
    · simp only [validOp, Bool.and_eq_true] at hv
      simp only [applyOp, updateTask_fst_of_bindable s qid u dt hb, enumInv,
        List.all_eq_true, Bool.and_eq_true]
      intro r hr
      rcases List.mem_map.mp hr with ⟨x, hx, rfl⟩
      by_cases hm : idMatches qid x = true
      · simp only [hm, if_true]
        constructor
        · cases hst : u.status with
          | none => simpa [applyUpdates, hst, Option.join] using (h x hx).1
          | some v =>
            cases v with
            | none => simpa [applyUpdates, hst, Option.join] using (h x hx).1
            | some st =>
              have := hv.1
              rw [hst] at this
              simpa [applyUpdates, hst, Option.join] using this
        · cases hpr : u.priority with
          | none => simpa [applyUpdates, hpr, Option.join] using (h x hx).2
          | some v =>
            cases v with
            | none => simpa [applyUpdates, hpr, Option.join] using (h x hx).2
            | some p =>
              have := hv.2
              rw [hpr] at this
              simpa [applyUpdates, hpr, Option.join] using this
      · simp only [hm, if_false]
        exact h x hx
    · have hb2 : bindable u = false := by
        cases hbv : bindable u
        · rfl
        · exact absurd hbv hb
      have hstate : applyOp s (Op.updateOp qid u dt) = s := by
        show (updateTask s qid u dt).1 = s
        rw [updateTask_undefined_binding s qid u dt hb2]
      rw [hstate]
      simp only [enumInv, List.all_eq_true, Bool.and_eq_true]
      exact h
  | deleteOp qid =>
    simp only [applyOp, deleteTask, enumInv, List.all_eq_true, Bool.and_eq_true]
    intro r hr
    exact h r (List.mem_of_mem_filter hr)

/-- Helper: the enumeration invariant holds along every validated trace. -/
theorem enumInv_runOps :
    ∀ (ops : List Op) (s : DBState), (∀ op ∈ ops, validOp op = true) →
      enumInv s = true → enumInv (runOps s ops) = true
  | [], _, _, h => h
  | op :: ops, s, hv, h => by
    rw [runOps, List.foldl_cons]
    exact enumInv_runOps ops (applyOp s op)
      (fun o ho => hv o (List.mem_cons_of_mem op ho))
      (enumInv_applyOp s op (hv op (List.mem_cons_self op ops)) h)

/-- C1 counterexample: the claimed invariant fails on a reachable state.
Nothing validates writes, so a `POST /api/tasks` whose body carries
`status = "bogus"` stores that row verbatim, and the resulting table holds a
status outside the enumerated set. -/
theorem unvalidated_status_stored :
    ((postTasksRoute initialState
        { title := some ("t"), description := none,
          status := some ("bogus"), priority := none } 0).state.rows.map Task.status)
        = ["bogus"] ∧
    ¬ ("bogus" ∈ enumStatuses) := by decide

/-- C1 (amended): the enumeration invariant does hold for every state reached
by a trace whose creations and updates only supply enumerated `status` and
`priority` values (the route defaults `pending`/`medium` are themselves
enumerated); unvalidated writes outside that set break it. -/
theorem enum_values_of_validated_writes (ops : List Op)
    (h : ∀ op ∈ ops, validOp op = true) :
    enumInv (runOps initialState ops) = true :=
  enumInv_runOps ops initialState h rfl

/-- Witness for the amended C1 on a two-step validated trace: a create with
the defaults followed by a fully bound status update to `completed`. -/
theorem enum_values_of_validated_writes_witness :
    (∀ op ∈ ([Op.createOp inpA 1, Op.updateOp (some 1) boundStatusUpd 1] : List Op),
      validOp op = true) ∧
    enumInv (runOps initialState
      [Op.createOp inpA 1, Op.updateOp (some 1) boundStatusUpd 1]) = true :=
  ⟨by decide,
    enum_values_of_validated_writes
      [Op.createOp inpA 1, Op.updateOp (some 1) boundStatusUpd 1]
      (by decide)⟩


/-- Helper: one service call preserves the timestamp invariant. -/
theorem timeInv_applyOp (s : DBState) (op : Op) (h : timeInv s) :
    timeInv (applyOp s op) := by
  cases op with
  | createOp inp dt =>
    intro r hr
    rcases List.mem_append.mp hr with hr | hr
    · rcases h r hr with ⟨h1, h2⟩
      exact ⟨h1, le_trans h2 (Nat.le_add_right _ _)⟩
    · rcases List.mem_singleton.mp hr with rfl
      exact ⟨le_refl _, le_refl _⟩
  | updateOp qid u dt =>
    by_cases hb : bindable u = true
    · rw [applyOp, updateTask_fst_of_bindable s qid u dt hb]
      intro r hr
      rcases List.mem_map.mp hr with ⟨x, hx, rfl⟩
      rcases h x hx with ⟨h1, h2⟩
      by_cases hm : idMatches qid x = true
      · simp only [hm, if_true]
        exact ⟨le_trans h1 (le_trans h2 (Nat.le_add_right _ _)), le_refl _⟩
      · simp only [hm, if_false]
        exact ⟨h1, le_trans h2 (Nat.le_add_right _ _)⟩
    · have hb2 : bindable u = false := by
        cases hbv : bindable u
        · rfl
        · exact absurd hbv hb
      rw [applyOp, updateTask_undefined_binding s qid u dt hb2]
      exact h
  | deleteOp qid =>
    intro r hr
    exact h r (List.mem_of_mem_filter hr)

/-- Helper: the timestamp invariant holds along every trace. -/
theorem timeInv_runOps :
    ∀ (ops : List Op) (s : DBState), timeInv s → timeInv (runOps s ops)
  | [], _, h => h
  | op :: ops, s, h => by
    rw [runOps, List.foldl_cons]
    exact timeInv_runOps ops (applyOp s op) (timeInv_applyOp s op h)

/-- C9: in every reachable database state, every task satisfies
`created_at <= updated_at` — creation stamps both with the same time and
every successful update re-stamps `updated_at` with the current (monotone)
clock. -/
theorem updated_at_ge_created_at (ops : List Op) (r : Task)
    (h : r ∈ (runOps initialState ops).rows) :
    r.created_at ≤ r.updated_at :=
  (timeInv_runOps ops initialState (fun _ hr => absurd hr (List.not_mem_nil _)) r h).1

/-- Witness for C9: the row created at time 5 and updated at time 7. -/
theorem updated_at_ge_created_at_witness :
    sampleRowUpd ∈ (runOps initialState
        [Op.createOp inpA 5, Op.updateOp (some 1) nullUpd 2]).rows ∧
    sampleRowUpd.created_at ≤ sampleRowUpd.updated_at :=
  ⟨by decide,
    updated_at_ge_created_at
      [Op.createOp inpA 5, Op.updateOp (some 1) nullUpd 2]
      sampleRowUpd (by decide)⟩

/-- Helper: in a well-formed state the fresh AUTOINCREMENT id collides with no
stored row, so the re-read after the insert returns exactly the new row. -/
theorem createTask_snd_of_wf (s : DBState) (inp : CreateInput) (dt : Nat)
    (hwf : wfIds s) :
    (createTask s inp dt).2 = some (insertedRow s inp (s.clock + dt)) := by
  have hnone : s.rows.find? (idMatches (some (s.nextId : Int))) = none := by
    rw [List.find?_eq_none]
    intro r hr
    have hlt := hwf r hr
    simp only [idMatches, decide_eq_true_eq]
    intro hcontra
    omega
  have hrow : idMatches (some (s.nextId : Int)) (insertedRow s inp (s.clock + dt)) = true := by
    simp [idMatches, insertedRow]
  unfold createTask getTaskById
  dsimp only
  rw [List.find?_append, hnone]
  simp [hrow]

/-- C5: a `POST /api/tasks` supplying only a (non-empty) title answers 201,
returns the stored row, and that row has `status = "pending"`,
`priority = "medium"`, an empty description, and both timestamps set to the
creation time. -/
theorem create_title_only_defaults (s : DBState) (ttl : String) (dt : Nat)
    (hwf : wfIds s) (ht : ¬ ttl = "") :
    postTasksRoute s (titleOnlyBody ttl) dt =
      { status := 201,
        body := RespBody.singleTask (insertedRow s (titleOnlyInput ttl) (s.clock + dt)),
        state := { rows := s.rows ++ [insertedRow s (titleOnlyInput ttl) (s.clock + dt)],
                   nextId := s.nextId + 1, clock := s.clock + dt } } ∧
    (insertedRow s (titleOnlyInput ttl) (s.clock + dt)).status = "pending" ∧
    (insertedRow s (titleOnlyInput ttl) (s.clock + dt)).priority = "medium" ∧
    (insertedRow s (titleOnlyInput ttl) (s.clock + dt)).description = "" ∧
    (insertedRow s (titleOnlyInput ttl) (s.clock + dt)).title = ttl ∧
    (insertedRow s (titleOnlyInput ttl) (s.clock + dt)).created_at = s.clock + dt ∧
    (insertedRow s (titleOnlyInput ttl) (s.clock + dt)).updated_at = s.clock + dt := by
  have h2 := createTask_snd_of_wf s (titleOnlyInput ttl) dt hwf
  have hfalsy : titleFalsy (titleOnlyBody ttl) = false := by
    simp [titleFalsy, titleOnlyBody, ht]
  refine ⟨?_, rfl, rfl, rfl, rfl, rfl, rfl⟩
  unfold postTasksRoute
  rw [hfalsy]
  simp only [Bool.false_eq_true, if_false]
  rw [show (createTask s
      { title := (titleOnlyBody ttl).title.getD (""),
        description := (titleOnlyBody ttl).description,
        status := (titleOnlyBody ttl).status.getD ("pending"),
        priority := (titleOnlyBody ttl).priority.getD ("medium") } dt).2
      = some (insertedRow s (titleOnlyInput ttl) (s.clock + dt)) from h2]
  rfl

/-- Witness for C5 with title `a` in the fresh database. -/
theorem create_title_only_defaults_witness :
    wfIds initialState ∧ ¬ ("a" : String) = "" ∧
    (postTasksRoute initialState (titleOnlyBody ("a")) 0).status = 201 ∧
    (postTasksRoute initialState (titleOnlyBody ("a")) 0).state.rows
      = initialState.rows ++ [insertedRow initialState (titleOnlyInput ("a")) 0] :=
  ⟨fun r hr => absurd hr (List.not_mem_nil r), by decide,
    by rw [(create_title_only_defaults initialState "a" 0
        (fun r hr => absurd hr (List.not_mem_nil r)) (by decide)).1],
    by
      rw [(create_title_only_defaults initialState "a" 0
        (fun r hr => absurd hr (List.not_mem_nil r)) (by decide)).1]
      rfl⟩

/-- C2 counterexample: id 1 exists, the body supplies a new status but omits
the other fields, and the real call throws a `TypeError` binding `undefined`:
the route answers 500, the supplied status is NOT applied, `updated_at` is
NOT refreshed, and a subsequent read returns the row unchanged — refuting the
claim for partial updates. -/
theorem partial_update_throws_no_change :
    getTaskById (createTask initialState inpA 0).1 (some 1) = some rowA0 ∧
    (updateTask (createTask initialState inpA 0).1 (some 1) statusOnlyUpd 3).2
      = Except.error () ∧
    (updateTask (createTask initialState inpA 0).1 (some 1) statusOnlyUpd 3).1
      = (createTask initialState inpA 0).1 ∧
    (putTaskRoute (createTask initialState inpA 0).1 "1" statusOnlyUpd 3).status = 500 ∧
    getTaskById (putTaskRoute (createTask initialState inpA 0).1 "1" statusOnlyUpd 3).state
        (some 1) = some rowA0 := by decide

/-- C2 (amended): for an existing id and an update body that binds all four
parameters (each a string or an explicit `null`), the update rewrites exactly
the string-supplied fields of that row (COALESCE keeps every null field),
always re-stamps `updated_at`, returns the updated row, a subsequent read of
the id returns exactly that row, and every non-matching row is kept verbatim;
a body omitting (leaving `undefined`) any field instead throws at bind time:
nothing changes and no `updated_at` is refreshed. -/
theorem bound_update_partial_fields (s : DBState) (n : Int) (u : UpdateInput) (dt : Nat)
    (r : Task) (hb : bindable u = true) (h : getTaskById s (some n) = some r) :
    (updateTask s (some n) u dt).2 = Except.ok (some (applyUpdates u (s.clock + dt) r)) ∧
    getTaskById (updateTask s (some n) u dt).1 (some n)
      = some (applyUpdates u (s.clock + dt) r) ∧
    (applyUpdates u (s.clock + dt) r).id = r.id ∧
    (applyUpdates u (s.clock + dt) r).created_at = r.created_at ∧
    (applyUpdates u (s.clock + dt) r).title = (Option.join u.title).getD r.title ∧
    (applyUpdates u (s.clock + dt) r).description
      = (Option.join u.description).getD r.description ∧
    (applyUpdates u (s.clock + dt) r).status = (Option.join u.status).getD r.status ∧
    (applyUpdates u (s.clock + dt) r).priority = (Option.join u.priority).getD r.priority ∧
    (applyUpdates u (s.clock + dt) r).updated_at = s.clock + dt ∧
    ∀ r2 ∈ s.rows, idMatches (some n) r2 = false →
      r2 ∈ (updateTask s (some n) u dt).1.rows := by
  have hfind : s.rows.find? (idMatches (some n)) = some r := h
  have hp : idMatches (some n) r = true := List.find?_some hfind
  have hr : r ∈ s.rows := List.mem_of_find?_eq_some hfind
  have hpos : 0 < (s.rows.filter (idMatches (some n))).length :=
    List.length_pos.mpr (List.ne_nil_of_mem (List.mem_filter.mpr ⟨hr, hp⟩))
  have hmap : ((s.rows.map fun x =>
      if idMatches (some n) x then applyUpdates u (s.clock + dt) x else x).find?
        (idMatches (some n))) = some (applyUpdates u (s.clock + dt) r) := by
    rw [find?_map_ite (idMatches (some n)) (applyUpdates u (s.clock + dt)) (fun x => rfl) s.rows, hfind]
    rfl
  have hupd : updateTask s (some n) u dt =
      ({ rows := s.rows.map fun x =>
            if idMatches (some n) x then applyUpdates u (s.clock + dt) x else x,
         nextId := s.nextId, clock := s.clock + dt },
        Except.ok (some (applyUpdates u (s.clock + dt) r))) := by
    unfold updateTask
    rw [if_pos hb]
    dsimp only
    rw [if_pos hpos]
    exact Prod.ext rfl (congrArg Except.ok hmap)
  refine ⟨?_, ?_, rfl, rfl, rfl, rfl, rfl, rfl, rfl, ?_⟩
  · rw [hupd]
  · rw [hupd]
    exact hmap
  · intro r2 hr2 hf
    rw [hupd]
    exact List.mem_map.mpr ⟨r2, hr2, by simp [hf]⟩

/-- Witness for the amended C2: setting the status of the sole task to
`completed` at time 3, the other fields explicitly null. -/
theorem bound_update_partial_fields_witness :
    bindable boundStatusUpd = true ∧
    getTaskById (createTask initialState inpA 0).1 (some 1) = some rowA0 ∧
    (updateTask (createTask initialState inpA 0).1 (some 1) boundStatusUpd 3).2
      = Except.ok
          (some (applyUpdates boundStatusUpd ((createTask initialState inpA 0).1.clock + 3)
            rowA0)) ∧
    (applyUpdates boundStatusUpd ((createTask initialState inpA 0).1.clock + 3) rowA0).status
      = "completed" ∧
    (applyUpdates boundStatusUpd ((createTask initialState inpA 0).1.clock + 3) rowA0).title
      = "A" ∧
    (applyUpdates boundStatusUpd ((createTask initialState inpA 0).1.clock + 3) rowA0).updated_at
      = 3 :=
  ⟨by decide, by decide,
    (bound_update_partial_fields (createTask initialState inpA 0).1 1 boundStatusUpd 3 rowA0
      (by decide) (by decide)).1,
    by decide, by decide, by decide⟩


/-- Helper: inserting a row strictly older than every element of a list lands
at the end of the list. -/
theorem insertByCreatedDesc_all_newer (x : Task) :
    ∀ l : List Task, (∀ y ∈ l, x.created_at < y.created_at) →
      insertByCreatedDesc x l = l ++ [x]
  | [], _ => rfl
  | y :: ys, h => by
    have hy : x.created_at < y.created_at := h y (List.mem_cons_self y ys)
    have hys := insertByCreatedDesc_all_newer x ys
      (fun z hz => h z (List.mem_cons_of_mem y hz))
    simp [insertByCreatedDesc, hy, hys]

/-- Helper: a list strictly ascending by creation time sorts (descending) to
its reverse. -/
theorem sortByCreatedDesc_of_ascending :
    ∀ l : List Task, l.Pairwise (fun a b => a.created_at < b.created_at) →
      sortByCreatedDesc l = l.reverse
  | [], _ => rfl
  | x :: xs, h => by
    rcases List.pairwise_cons.mp h with ⟨hx, hxs⟩
    rw [sortByCreatedDesc, sortByCreatedDesc_of_ascending xs hxs]
    rw [insertByCreatedDesc_all_newer x xs.reverse
      (fun y hy => hx y (List.mem_reverse.mp hy))]
    rw [List.reverse_cons]

/-- Helper: creating a task strictly after every stored timestamp keeps the
table chronologically ordered. -/
theorem chronOrdered_createTask (s : DBState) (inp : CreateInput) (dt : Nat)
    (h : chronOrdered s) (hdt : 0 < dt) :
    chronOrdered (createTask s inp dt).1 := by
  rcases h with ⟨hpw, hle⟩
  have hrows : (createTask s inp dt).1.rows
      = s.rows ++ [insertedRow s inp (s.clock + dt)] := rfl
  have hclock : (createTask s inp dt).1.clock = s.clock + dt := rfl
  constructor
  · rw [hrows, List.pairwise_append]
    refine ⟨hpw, List.pairwise_singleton _ _, ?_⟩
    intro a ha b hb
    rcases List.mem_singleton.mp hb with rfl
    have := hle a ha
    show a.created_at < s.clock + dt
    omega
  · intro r hr
    rw [hclock]
    rw [hrows] at hr
    rcases List.mem_append.mp hr with hr | hr
    · have := hle r hr
      omega
    · rcases List.mem_singleton.mp hr with rfl
      exact le_refl _

/-- Helper: a run of strictly clock-advancing creations keeps the table
chronologically ordered and appends the new titles in creation order. -/
theorem chronOrdered_runCreates :
    ∀ (inputs : List (CreateInput × Nat)) (s : DBState), chronOrdered s →
      (∀ p ∈ inputs, 0 < p.2) →
      chronOrdered (runOps s (createOps inputs)) ∧
      (runOps s (createOps inputs)).rows.map Task.title
        = s.rows.map Task.title ++ inputs.map (fun p => p.1.title)
  | [], s, hs, _ => ⟨hs, by simp [runOps, createOps]⟩
  | p :: ps, s, hs, h => by
    have h0 : 0 < p.2 := h p (List.mem_cons_self p ps)
    have hcr := chronOrdered_createTask s p.1 p.2 hs h0
    have ih := chronOrdered_runCreates ps (createTask s p.1 p.2).1 hcr
      (fun q hq => h q (List.mem_cons_of_mem p hq))
    have hstep : runOps s (createOps (p :: ps))
        = runOps (createTask s p.1 p.2).1 (createOps ps) := by
      rw [createOps, List.map_cons, runOps, List.foldl_cons]
      rfl
    have hrow : (createTask s p.1 p.2).1.rows.map Task.title
        = s.rows.map Task.title ++ [p.1.title] := by
      show (s.rows ++ [insertedRow s p.1 (s.clock + p.2)]).map Task.title = _
      simp [insertedRow]
    refine ⟨?_, ?_⟩
    · rw [hstep]
      exact ih.1
    · rw [hstep, ih.2, hrow, List.map_cons]
      simp

/-- C3 counterexample: `created_at` has second resolution, so three tasks
created within the same second share a timestamp, and
`ORDER BY created_at DESC` then keeps them in storage order A, B, C — not the
claimed C, B, A. -/
theorem same_second_creations_keep_storage_order :
    (getAllTasks (runOps initialState
      [Op.createOp inpA 0, Op.createOp inpB 0, Op.createOp inpC 0])).map Task.title
      = ["A", "B", "C"] ∧
    (["A", "B", "C"] : List String) ≠ ["C", "B", "A"] := by decide

/-- C3 (amended): for every sequence of creations whose creation timestamps
strictly increase, `listTasks` returns the tasks newest first, i.e. the
reverse of creation order (so creating A then B then C in distinct seconds
lists C, B, A). -/
theorem list_newest_first_of_increasing_times (inputs : List (CreateInput × Nat))
    (h : ∀ p ∈ inputs, 0 < p.2) :
    getAllTasks (runOps initialState (createOps inputs))
      = (runOps initialState (createOps inputs)).rows.reverse ∧
    (runOps initialState (createOps inputs)).rows.map Task.title
      = inputs.map (fun p => p.1.title) := by
  have h0 : chronOrdered initialState :=
    ⟨List.Pairwise.nil, fun r hr => absurd hr (List.not_mem_nil r)⟩
  have hmain := chronOrdered_runCreates inputs initialState h0 h
  exact ⟨sortByCreatedDesc_of_ascending _ hmain.1.1, by simpa using hmain.2⟩

/-- Witness for the amended C3 on creations A, B, C one second apart. -/
theorem list_newest_first_witness :
    (∀ p ∈ ([(inpA, 1), (inpB, 1), (inpC, 1)] : List (CreateInput × Nat)), 0 < p.2) ∧
    (getAllTasks (runOps initialState (createOps [(inpA, 1), (inpB, 1), (inpC, 1)]))
      = (runOps initialState (createOps [(inpA, 1), (inpB, 1), (inpC, 1)])).rows.reverse ∧
    (runOps initialState (createOps [(inpA, 1), (inpB, 1), (inpC, 1)])).rows.map Task.title
      = ([(inpA, 1), (inpB, 1), (inpC, 1)] : List (CreateInput × Nat)).map (fun p => p.1.title)) :=
  ⟨by decide,
    list_newest_first_of_increasing_times [(inpA, 1), (inpB, 1), (inpC, 1)] (by decide)⟩

end TaskManager
